import Mathlib

/-!
Verification development for the hotelops-support-bot repository.

The embedding models:
* `src/database/memory_db.py` (`MemoryDatabase`) as the namespace `MemDB`;
* `src/tools/user_data_manager.py` (`UserDataManager`) as the namespace `UM`;
* `src/tools/session_manager.py` (`SessionManager`, `ConversationState`) and
  `src/tools/interactive_user_manager.py` (`InteractiveUserManager`) as the
  namespace `Flow`.

Python dictionaries are modelled as association lists with Python-dict
semantics: updating an existing key keeps its position, inserting a new key
appends.  Timestamps produced by `datetime.now().isoformat()` are threaded as
an explicit opaque `now : String` argument.  Python exceptions are modelled as
explicit error values (`Except`, or a result pair); text of user-facing reply
strings is not modelled, only the state/store effects the claims are about.
-/

namespace PyDict

/-- Python `d.get(k)`: lookup in an association list. -/
def dget {α : Type} (l : List (String × α)) (k : String) : Option α :=
  match l with
  | [] => none
  | (k₂, v) :: t => if k₂ = k then some v else dget t k

/-- Python `d[k] = v`: overwrite in place if the key exists, else append
(Python dicts preserve insertion order). -/
def dput {α : Type} (l : List (String × α)) (k : String) (v : α) : List (String × α) :=
  match l with
  | [] => [(k, v)]
  | (k₂, v₂) :: t => if k₂ = k then (k₂, v) :: t else (k₂, v₂) :: dput t k v

/-- Python `del d[k]`: remove the first (only) binding of the key. -/
def ddel {α : Type} (l : List (String × α)) (k : String) : List (String × α) :=
  match l with
  | [] => []
  | (k₂, v₂) :: t => if k₂ = k then t else (k₂, v₂) :: ddel t k

theorem dget_dput_self {α : Type} (l : List (String × α)) (k : String) (v : α) :
    dget (dput l k v) k = some v := by
  induction l with
  | nil => simp [dget, dput]
  | cons h t ih =>
    obtain ⟨k₂, v₂⟩ := h
    by_cases hk : k₂ = k
    · simp [dget, dput, hk]
    · simp [dget, dput, hk, ih]

theorem dget_dput_ne {α : Type} (l : List (String × α)) (k k₂ : String) (v : α)
    (h : k₂ ≠ k) : dget (dput l k v) k₂ = dget l k₂ := by
  have hne : k ≠ k₂ := Ne.symm h
  induction l with
  | nil => simp [dget, dput, hne]
  | cons hd t ih =>
    obtain ⟨k₃, v₃⟩ := hd
    by_cases hk : k₃ = k
    · have hk₂ : k₃ ≠ k₂ := by rw [hk]; exact hne
      simp [dget, dput, if_pos hk, hk₂]
    · by_cases hk₂ : k₃ = k₂
      · simp [dget, dput, if_neg hk, hk₂, h]
      · simp [dget, dput, if_neg hk, hk₂, ih]

theorem mem_dput {α : Type} {l : List (String × α)} {k : String} {v : α} {kv : String × α}
    (h : kv ∈ dput l k v) : kv ∈ l ∨ kv = (k, v) := by
  induction l with
  | nil =>
    simp only [dput, List.mem_singleton] at h
    exact Or.inr h
  | cons hd t ih =>
    obtain ⟨k₃, v₃⟩ := hd
    by_cases hk : k₃ = k
    · simp only [dput, if_pos hk, List.mem_cons] at h
      rcases h with hh | hh
      · exact Or.inr (by rw [hh, hk])
      · exact Or.inl (List.mem_cons_of_mem _ hh)
    · simp only [dput, if_neg hk, List.mem_cons] at h
      rcases h with hh | hh
      · exact Or.inl (by simp [hh])
      · rcases ih hh with h₂ | h₂
        · exact Or.inl (List.mem_cons_of_mem _ h₂)
        · exact Or.inr h₂

theorem length_dput_fresh {α : Type} {l : List (String × α)} {k : String} (v : α)
    (h : dget l k = none) : (dput l k v).length = l.length + 1 := by
  induction l with
  | nil => simp [dput]
  | cons hd t ih =>
    obtain ⟨k₃, v₃⟩ := hd
    by_cases hk : k₃ = k
    · simp [dget, hk] at h
    · simp only [dget, if_neg hk] at h
      simp [dput, if_neg hk, ih h]

theorem dget_eq_none_of_fresh {α : Type} {l : List (String × α)} {k : String}
    (h : ∀ kv ∈ l, kv.1 ≠ k) : dget l k = none := by
  induction l with
  | nil => rfl
  | cons hd t ih =>
    obtain ⟨k₃, v₃⟩ := hd
    have hne : k₃ ≠ k := h (k₃, v₃) (List.mem_cons_self _ _)
    simp only [dget, if_neg hne]
    exact ih fun kv hkv => h kv (List.mem_cons_of_mem _ hkv)

end PyDict

namespace NatRepr

/-- Numeric value of a decimal digit character. -/
def charVal (c : Char) : Nat := c.toNat - 48

/-- Value of a most-significant-first list of decimal digit characters. -/
def digitsVal (ds : List Char) : Nat := ds.foldl (fun a c => 10 * a + charVal c) 0

theorem digitChar_toNat {k : Nat} (h : k < 10) : (Nat.digitChar k).toNat = 48 + k := by
  interval_cases k <;> rfl

theorem digitsVal_append_singleton (ds : List Char) (c : Char) :
    digitsVal (ds ++ [c]) = 10 * digitsVal ds + charVal c := by
  simp [digitsVal, List.foldl_append]

theorem toDigitsCore_append (f n : Nat) (ds : List Char) :
    Nat.toDigitsCore 10 f n ds = Nat.toDigitsCore 10 f n [] ++ ds := by
  induction f generalizing n ds with
  | zero => simp [Nat.toDigitsCore]
  | succ f ih =>
    simp only [Nat.toDigitsCore]
    by_cases h : n / 10 = 0
    · simp [h]
    · simp only [if_neg h]
      rw [ih (n / 10) (Nat.digitChar (n % 10) :: ds), ih (n / 10) [Nat.digitChar (n % 10)]]
      simp

theorem digitsVal_toDigitsCore (f : Nat) : ∀ n : Nat, n < f →
    digitsVal (Nat.toDigitsCore 10 f n []) = n := by
  induction f with
  | zero => intro n h; omega
  | succ f ih =>
    intro n h
    simp only [Nat.toDigitsCore]
    by_cases h0 : n / 10 = 0
    · have hn : n < 10 := by omega
      simp only [if_pos h0, digitsVal, List.foldl]
      have := digitChar_toNat (Nat.mod_lt n (by norm_num) : n % 10 < 10)
      simp only [charVal, this]
      omega
    · have hnpos : 0 < n := by
        by_contra hc
        push_neg at hc
        interval_cases n
        simp at h0
      have hdiv : n / 10 < n := Nat.div_lt_self hnpos (by norm_num)
      have hlt : n / 10 < f := by omega
      simp only [if_neg h0]
      rw [toDigitsCore_append, digitsVal_append_singleton, ih (n / 10) hlt]
      have h10 : n % 10 < 10 := Nat.mod_lt n (by norm_num)
      simp only [charVal, digitChar_toNat h10]
      omega

theorem digitsVal_repr (n : Nat) : digitsVal (Nat.repr n).data = n := by
  show digitsVal ((Nat.toDigits 10 n).asString).data = n
  have : ((Nat.toDigits 10 n).asString).data = Nat.toDigits 10 n := rfl
  rw [this]
  exact digitsVal_toDigitsCore (n + 1) n (Nat.lt_succ_self n)

theorem repr_inj {m n : Nat} (h : Nat.repr m = Nat.repr n) : m = n := by
  have := congrArg (fun s => digitsVal (String.data s)) h
  simpa [digitsVal_repr] using this

theorem data_append (s t : String) : (s ++ t).data = s.data ++ t.data := by
  cases s; cases t; rfl

theorem userId_inj {m n : Nat} (h : "user_" ++ Nat.repr m = "user_" ++ Nat.repr n) :
    m = n := by
  apply repr_inj
  have h₂ := congrArg String.data h
  rw [data_append, data_append] at h₂
  have h₃ := List.append_cancel_left h₂
  cases hm : Nat.repr m
  case mk =>
    cases hn : Nat.repr n
    case mk =>
      congr 1
      have : (Nat.repr m).data = (Nat.repr n).data := h₃
      rw [hm, hn] at this
      simpa using this

end NatRepr

namespace MemDB

open PyDict

/-- A stored user record in `MemoryDatabase._data["users"]`.  Fields of the
incoming `user_data` dict are `Option String` (`none` = key absent); the
metadata fields added by `create_user` are always present. -/
structure UserRecord where
  first_name : Option String
  last_name : Option String
  email : Option String
  phone : Option String
  role : Option String
  department : Option String
  user_id : String
  created_at : String
  updated_at : String
  status : String
  deleted_at : Option String
deriving DecidableEq

/-- The `user_data` dict passed to `create_user` / `update_user`
(`none` = key absent from the dict). -/
structure UserInput where
  first_name : Option String := none
  last_name : Option String := none
  email : Option String := none
  phone : Option String := none
  role : Option String := none
  department : Option String := none
  status : Option String := none
deriving DecidableEq

/-- State of `MemoryDatabase`: the users table, the two unique-field indexes
and the auto-increment counter for the `users` table. -/
structure DB where
  users : List (String × UserRecord)
  users_by_email : List (String × String)
  users_by_phone : List (String × String)
  counter : Nat
deriving DecidableEq

/-- Fresh `MemoryDatabase()`: empty tables, `users` counter starts at 1000. -/
def initDB : DB := ⟨[], [], [], 1000⟩

/-- Embeds `_generate_id("users")`: bump the counter and build
`f"user_{counter}"`. -/
def generateId (c : Nat) : Nat × String := (c + 1, "user_" ++ Nat.repr (c + 1))

/-- Embeds `_update_indexes("users", item_id, data)`: insert the email and
phone index entries for whichever of the two keys the record carries. -/
def updateIndexes (db : DB) (uid : String) (r : UserRecord) : DB :=
  let db₂ := match r.email with
    | some e => { db with users_by_email := dput db.users_by_email e uid }
    | none => db
  match r.phone with
  | some p => { db₂ with users_by_phone := dput db₂.users_by_phone p uid }
  | none => db₂

/-- The `ValueError` raised by `create_user` on a duplicate email. -/
inductive DBError where
  | duplicateEmail (email : String)
deriving DecidableEq

/-- Embeds the duplicate check in `create_user`:
`if email and email in self._indexes["users_by_email"]`. -/
def emailDup (db : DB) (em : Option String) : Bool :=
  match em with
  | some e => decide (e ≠ "") && (dget db.users_by_email e).isSome
  | none => false

/-- The record built by `create_user`:
`{**user_data, "user_id": ..., "created_at": ..., "updated_at": ...,
"status": user_data.get("status", "active")}`. -/
def mkRecord (ud : UserInput) (uid now : String) : UserRecord :=
  { first_name := ud.first_name, last_name := ud.last_name, email := ud.email,
    phone := ud.phone, role := ud.role, department := ud.department,
    user_id := uid, created_at := now, updated_at := now,
    status := ud.status.getD "active", deleted_at := none }

/-- Embeds `MemoryDatabase.create_user`.  The id is generated (counter bumped)
before the duplicate check, exactly as in the source; a raised `ValueError`
is returned as `Except.error` with the table and indexes untouched. -/
def createUser (db : DB) (ud : UserInput) (now : String) :
    DB × Except DBError UserRecord :=
  let g := generateId db.counter
  let db₁ : DB := { db with counter := g.1 }
  if emailDup db₁ ud.email then
    (db₁, Except.error (DBError.duplicateEmail (ud.email.getD "")))
  else
    let r := mkRecord ud g.2 now
    let db₂ : DB := { db₁ with users := dput db₁.users g.2 r }
    (updateIndexes db₂ g.2 r, Except.ok r)

/-- Embeds `MemoryDatabase.get_user`. -/
def getUser (db : DB) (uid : String) : Option UserRecord := dget db.users uid

/-- Embeds `MemoryDatabase.get_user_by_email`: resolve the email index, then
read the users table. -/
def getUserByEmail (db : DB) (e : String) : Option UserRecord :=
  match dget db.users_by_email e with
  | some uid => dget db.users uid
  | none => none

/-- Embeds `MemoryDatabase.get_user_by_phone`. -/
def getUserByPhone (db : DB) (p : String) : Option UserRecord :=
  match dget db.users_by_phone p with
  | some uid => dget db.users uid
  | none => none

/-- Python `record.update(updates)` on a stored user record: keys present in
the updates dict overwrite the record, absent keys are kept. -/
def applyUpdates (r : UserRecord) (u : UserInput) : UserRecord :=
  { r with
    first_name := match u.first_name with | some v => some v | none => r.first_name,
    last_name := match u.last_name with | some v => some v | none => r.last_name,
    email := match u.email with | some v => some v | none => r.email,
    phone := match u.phone with | some v => some v | none => r.phone,
    role := match u.role with | some v => some v | none => r.role,
    department := match u.department with | some v => some v | none => r.department,
    status := u.status.getD r.status }

/-- Embeds `MemoryDatabase.update_user`: in-place merge of the updates,
refresh `updated_at`, then `_update_indexes` on the merged record. -/
def updateUser (db : DB) (uid : String) (upd : UserInput) (now : String) :
    DB × Option UserRecord :=
  match dget db.users uid with
  | none => (db, none)
  | some r =>
      let r₂ := { applyUpdates r upd with updated_at := now }
      let db₂ : DB := { db with users := dput db.users uid r₂ }
      (updateIndexes db₂ uid r₂, some r₂)

/-- Embeds `MemoryDatabase.delete_user`: soft delete, setting
`status = "deleted"` and `deleted_at`; the row is kept and no index entry is
touched. -/
def deleteUser (db : DB) (uid : String) (now : String) : DB × Bool :=
  match dget db.users uid with
  | none => (db, false)
  | some r =>
      let r₂ : UserRecord := { r with status := "deleted", deleted_at := some now }
      ({ db with users := dput db.users uid r₂ }, true)

end MemDB

namespace PyDict

theorem dget_mem {α : Type} {l : List (String × α)} {k : String} {v : α}
    (h : dget l k = some v) : (k, v) ∈ l := by
  induction l with
  | nil => simp [dget] at h
  | cons hd t ih =>
    obtain ⟨k₃, v₃⟩ := hd
    by_cases hk : k₃ = k
    · simp only [dget, if_pos hk] at h
      injection h with hv
      rw [← hk, ← hv]
      exact List.mem_cons_self _ _
    · simp only [dget, if_neg hk] at h
      exact List.mem_cons_of_mem _ (ih h)

end PyDict

namespace MemDB

open PyDict

/-- The spec invariant for C2: every unique-field index entry maps a field
value to a user whose record currently holds that value (no orphaned
entries). -/
def IndexAgrees (db : DB) : Prop :=
  (∀ e uid, dget db.users_by_email e = some uid →
     ∃ r, dget db.users uid = some r ∧ r.email = some e) ∧
  (∀ p uid, dget db.users_by_phone p = some uid →
     ∃ r, dget db.users uid = some r ∧ r.phone = some p)

/-- Auxiliary invariant: every key of the users table was produced by
`_generate_id` with a counter value at most the current one. -/
def KeysBounded (db : DB) : Prop :=
  ∀ kv ∈ db.users, ∃ n, n ≤ db.counter ∧ kv.1 = "user_" ++ Nat.repr n

theorem fresh_id {db : DB} (hK : KeysBounded db) :
    dget db.users ("user_" ++ Nat.repr (db.counter + 1)) = none := by
  apply dget_eq_none_of_fresh
  intro kv hkv heq
  obtain ⟨n, hn, hid⟩ := hK kv hkv
  rw [hid] at heq
  have := NatRepr.userId_inj heq
  omega

theorem updateIndexes_users (db : DB) (uid : String) (r : UserRecord) :
    (updateIndexes db uid r).users = db.users := by
  unfold updateIndexes
  cases r.email <;> cases r.phone <;> rfl

theorem updateIndexes_counter (db : DB) (uid : String) (r : UserRecord) :
    (updateIndexes db uid r).counter = db.counter := by
  unfold updateIndexes
  cases r.email <;> cases r.phone <;> rfl

theorem updateIndexes_email (db : DB) (uid : String) (r : UserRecord) :
    (updateIndexes db uid r).users_by_email =
      match r.email with
      | some e => dput db.users_by_email e uid
      | none => db.users_by_email := by
  unfold updateIndexes
  cases r.email <;> cases r.phone <;> rfl

theorem updateIndexes_phone (db : DB) (uid : String) (r : UserRecord) :
    (updateIndexes db uid r).users_by_phone =
      match r.phone with
      | some p => dput db.users_by_phone p uid
      | none => db.users_by_phone := by
  unfold updateIndexes
  cases r.email <;> cases r.phone <;> rfl

/-- Inserting a record under a key absent from the users table and refreshing
the indexes for that record preserves index agreement. -/
theorem indexAgrees_insert {db : DB} (uid : String) (r : UserRecord)
    (hI : IndexAgrees db) (hfresh : dget db.users uid = none) :
    IndexAgrees (updateIndexes ({ db with users := dput db.users uid r }) uid r) := by
  obtain ⟨hIe, hIp⟩ := hI
  have husers : (updateIndexes ({ db with users := dput db.users uid r }) uid r).users
      = dput db.users uid r := by rw [updateIndexes_users]
  constructor
  · intro e uid₂ hidx
    rw [updateIndexes_email] at hidx
    rw [husers]
    cases he : r.email with
    | none =>
      rw [he] at hidx
      dsimp only at hidx
      obtain ⟨r₂, hr₂, hre⟩ := hIe e uid₂ hidx
      have hne : uid₂ ≠ uid := by
        intro hh; rw [hh, hfresh] at hr₂; exact Option.noConfusion hr₂
      exact ⟨r₂, by rw [dget_dput_ne _ _ _ _ hne]; exact hr₂, hre⟩
    | some e₂ =>
      rw [he] at hidx
      dsimp only at hidx
      by_cases hee : e = e₂
      · subst hee
        rw [dget_dput_self] at hidx
        injection hidx with hidx
        subst hidx
        exact ⟨r, dget_dput_self _ _ _, he⟩
      · rw [dget_dput_ne _ e₂ e _ (fun hh => hee hh)] at hidx
        obtain ⟨r₂, hr₂, hre⟩ := hIe e uid₂ hidx
        have hne : uid₂ ≠ uid := by
          intro hh; rw [hh, hfresh] at hr₂; exact Option.noConfusion hr₂
        exact ⟨r₂, by rw [dget_dput_ne _ _ _ _ hne]; exact hr₂, hre⟩
  · intro p uid₂ hidx
    rw [updateIndexes_phone] at hidx
    rw [husers]
    cases hp : r.phone with
    | none =>
      rw [hp] at hidx
      dsimp only at hidx
      obtain ⟨r₂, hr₂, hrp⟩ := hIp p uid₂ hidx
      have hne : uid₂ ≠ uid := by
        intro hh; rw [hh, hfresh] at hr₂; exact Option.noConfusion hr₂
      exact ⟨r₂, by rw [dget_dput_ne _ _ _ _ hne]; exact hr₂, hrp⟩
    | some p₂ =>
      rw [hp] at hidx
      dsimp only at hidx
      by_cases hpp : p = p₂
      · subst hpp
        rw [dget_dput_self] at hidx
        injection hidx with hidx
        subst hidx
        exact ⟨r, dget_dput_self _ _ _, hp⟩
      · rw [dget_dput_ne _ p₂ p _ (fun hh => hpp hh)] at hidx
        obtain ⟨r₂, hr₂, hrp⟩ := hIp p uid₂ hidx
        have hne : uid₂ ≠ uid := by
          intro hh; rw [hh, hfresh] at hr₂; exact Option.noConfusion hr₂
        exact ⟨r₂, by rw [dget_dput_ne _ _ _ _ hne]; exact hr₂, hrp⟩

/-- Overwriting a stored record with one carrying the same email and phone
values preserves index agreement (the delete path). -/
theorem indexAgrees_overwrite {db : DB} {uid : String} {r r₂ : UserRecord}
    (hI : IndexAgrees db) (hget : dget db.users uid = some r)
    (hemail : r₂.email = r.email) (hphone : r₂.phone = r.phone) :
    IndexAgrees { db with users := dput db.users uid r₂ } := by
  obtain ⟨hIe, hIp⟩ := hI
  constructor
  · intro e uid₂ hidx
    obtain ⟨r₃, hr₃, hre⟩ := hIe e uid₂ hidx
    by_cases hne : uid₂ = uid
    · subst hne
      rw [hget] at hr₃
      obtain rfl : r = r₃ := by injection hr₃
      exact ⟨r₂, dget_dput_self _ _ _, by rw [hemail]; exact hre⟩
    · exact ⟨r₃, by rw [dget_dput_ne _ _ _ _ hne]; exact hr₃, hre⟩
  · intro p uid₂ hidx
    obtain ⟨r₃, hr₃, hrp⟩ := hIp p uid₂ hidx
    by_cases hne : uid₂ = uid
    · subst hne
      rw [hget] at hr₃
      obtain rfl : r = r₃ := by injection hr₃
      exact ⟨r₂, dget_dput_self _ _ _, by rw [hphone]; exact hrp⟩
    · exact ⟨r₃, by rw [dget_dput_ne _ _ _ _ hne]; exact hr₃, hrp⟩

end MemDB

namespace MemDB

open PyDict

/-- The id `_generate_id("users")` will hand out for the next created user. -/
def newUid (db : DB) : String := "user_" ++ Nat.repr (db.counter + 1)

theorem createUser_dup {db : DB} {ud : UserInput} (now : String)
    (h : emailDup db ud.email = true) :
    createUser db ud now =
      ({ db with counter := db.counter + 1 },
        Except.error (DBError.duplicateEmail (ud.email.getD ""))) := by
  have h₂ : emailDup { db with counter := db.counter + 1 } ud.email = true := h
  unfold createUser generateId
  dsimp only
  rw [h₂]
  rfl

theorem createUser_ok {db : DB} {ud : UserInput} (now : String)
    (h : emailDup db ud.email = false) :
    createUser db ud now =
      (updateIndexes
        { db with users := dput db.users (newUid db) (mkRecord ud (newUid db) now),
                  counter := db.counter + 1 }
        (newUid db) (mkRecord ud (newUid db) now),
       Except.ok (mkRecord ud (newUid db) now)) := by
  have h₂ : emailDup { db with counter := db.counter + 1 } ud.email = false := h
  unfold createUser generateId
  dsimp only
  rw [h₂]
  rfl

theorem inv_createUser {db : DB} (ud : UserInput) (now : String)
    (hI : IndexAgrees db) (hK : KeysBounded db) :
    IndexAgrees (createUser db ud now).1 ∧ KeysBounded (createUser db ud now).1 := by
  by_cases hdup : emailDup db ud.email = true
  · rw [createUser_dup now hdup]
    dsimp only
    refine ⟨hI, ?_⟩
    intro kv hkv
    obtain ⟨n, hn, hid⟩ := hK kv hkv
    exact ⟨n, Nat.le_succ_of_le hn, hid⟩
  · have hdup₂ : emailDup db ud.email = false := by
      cases hb : emailDup db ud.email
      · rfl
      · exact absurd hb hdup
    rw [createUser_ok now hdup₂]
    dsimp only
    constructor
    · exact @indexAgrees_insert { db with counter := db.counter + 1 }
        (newUid db) (mkRecord ud (newUid db) now) hI (fresh_id hK)
    · intro kv hkv
      rw [updateIndexes_users] at hkv
      rw [updateIndexes_counter]
      rcases mem_dput hkv with hmem | heq
      · obtain ⟨n, hn, hid⟩ := hK kv hmem
        exact ⟨n, Nat.le_succ_of_le hn, hid⟩
      · exact ⟨db.counter + 1, Nat.le_refl _, by rw [heq]; rfl⟩

theorem inv_deleteUser {db : DB} (uid now : String)
    (hI : IndexAgrees db) (hK : KeysBounded db) :
    IndexAgrees (deleteUser db uid now).1 ∧ KeysBounded (deleteUser db uid now).1 := by
  rcases hget : dget db.users uid with _ | r
  · unfold deleteUser
    rw [hget]
    exact ⟨hI, hK⟩
  · unfold deleteUser
    rw [hget]
    dsimp only
    constructor
    · exact indexAgrees_overwrite hI hget rfl rfl
    · intro kv hkv
      rcases mem_dput hkv with hmem | heq
      · exact hK kv hmem
      · obtain ⟨n, hn, hid⟩ := hK (uid, r) (dget_mem hget)
        exact ⟨n, hn, by rw [heq]; exact hid⟩

/-- A store operation of the kind the C2 induction ranges over. -/
inductive DBOp where
  | create (ud : UserInput) (now : String)
  | del (uid : String) (now : String)

/-- Apply one store operation, keeping the resulting database (a raised
duplicate error or a missed lookup leaves the tables unchanged). -/
def applyOp (db : DB) : DBOp → DB
  | .create ud now => (createUser db ud now).1
  | .del uid now => (deleteUser db uid now).1

/-- Run a sequence of store operations from a given database. -/
def runOps (db : DB) (ops : List DBOp) : DB := ops.foldl applyOp db

theorem indexAgrees_init : IndexAgrees initDB := by
  constructor
  · intro e uid h
    simp [initDB, dget] at h
  · intro p uid h
    simp [initDB, dget] at h

theorem keysBounded_init : KeysBounded initDB := by
  intro kv hkv
  simp [initDB] at hkv

theorem inv_runOps (ops : List DBOp) :
    ∀ db : DB, IndexAgrees db → KeysBounded db →
      IndexAgrees (runOps db ops) ∧ KeysBounded (runOps db ops) := by
  induction ops with
  | nil => intro db hI hK; exact ⟨hI, hK⟩
  | cons op rest ih =>
    intro db hI hK
    have hstep : IndexAgrees (applyOp db op) ∧ KeysBounded (applyOp db op) := by
      cases op with
      | create ud now => exact inv_createUser ud now hI hK
      | del uid now => exact inv_deleteUser uid now hI hK
    exact ih (applyOp db op) hstep.1 hstep.2

end MemDB

namespace MemDB

open PyDict

theorem updateUser_email_index {db : DB} {uid : String} {upd : UserInput}
    {now e : String} {r : UserRecord}
    (hget : dget db.users uid = some r) (hupd : upd.email = some e) :
    dget ((updateUser db uid upd now).1).users_by_email e = some uid := by
  unfold updateUser
  rw [hget]
  dsimp only
  rw [updateIndexes_email]
  have hre : ({ applyUpdates r upd with updated_at := now } : UserRecord).email = some e := by
    show (applyUpdates r upd).email = some e
    unfold applyUpdates
    dsimp only
    rw [hupd]
  rw [hre]
  dsimp only
  exact dget_dput_self _ _ _

/-- Example inputs used by concrete runs in counterexamples and witnesses. -/
def exUser : UserInput :=
  { first_name := some "Alice", last_name := some "Smith",
    email := some "alice@hotel.com", phone := some "+15550001111" }

/-- The database after creating `exUser` in a fresh `MemoryDatabase`. -/
def exDB₁ : DB := (createUser initDB exUser "t1").1

/-- An update that changes the email of the stored user. -/
def exUpd : UserInput := { email := some "alice.new@hotel.com" }

/-- The database after `update_user("user_1001", {"email": "alice.new@hotel.com"})`. -/
def exDB₂ : DB := (updateUser exDB₁ "user_1001" exUpd "t2").1

end MemDB

/-- C2 (counterexample): after `create_user` with email `alice@hotel.com`
followed by `update_user` changing the email to `alice.new@hotel.com`, the
`users_by_email` index still has an entry for the old email pointing at
`user_1001`, whose record now holds the new email — an orphaned index entry,
so the agreement invariant claimed by C2 is false on this run. -/
theorem C2_counterexample :
    PyDict.dget MemDB.exDB₂.users_by_email "alice@hotel.com" = some "user_1001" ∧
    (PyDict.dget MemDB.exDB₂.users "user_1001").map MemDB.UserRecord.email =
      some (some "alice.new@hotel.com") ∧
    ¬ MemDB.IndexAgrees MemDB.exDB₂ := by
  refine ⟨by decide, by decide, ?_⟩
  intro hI
  obtain ⟨r, hr, hre⟩ := hI.1 "alice@hotel.com" "user_1001" (by decide)
  have h₂ : (PyDict.dget MemDB.exDB₂.users "user_1001").map MemDB.UserRecord.email =
      some (some "alice.new@hotel.com") := by decide
  rw [hr] at h₂
  simp only [Option.map_some'] at h₂
  rw [hre] at h₂
  exact absurd h₂ (by decide)

/-- C2 (amended): after every sequence of `create_user` and `delete_user`
operations starting from a fresh `MemoryDatabase`, the unique-field indexes
agree with the users table (every entry maps a field value to a user whose
record currently holds that value, no orphaned entries); and `update_user`
refreshes the index entry for the updated email value, mapping it to the
updated user.  (As the counterexample shows, an email-changing `update_user`
retains the stale entry for the old email, so agreement does not extend to
update sequences.) -/
theorem C2_index_agreement :
    (∀ ops : List MemDB.DBOp, MemDB.IndexAgrees (MemDB.runOps MemDB.initDB ops)) ∧
    (∀ (db : MemDB.DB) (uid : String) (upd : MemDB.UserInput) (now e : String)
       (r : MemDB.UserRecord),
      PyDict.dget db.users uid = some r → upd.email = some e →
      PyDict.dget ((MemDB.updateUser db uid upd now).1).users_by_email e = some uid) := by
  constructor
  · intro ops
    exact (MemDB.inv_runOps ops MemDB.initDB MemDB.indexAgrees_init MemDB.keysBounded_init).1
  · intro db uid upd now e r hget hupd
    exact MemDB.updateUser_email_index hget hupd

/-- C2 (witness): the amended theorem applied to a concrete one-create run
and to a concrete update of the stored user. -/
theorem C2_witness :
    MemDB.IndexAgrees (MemDB.runOps MemDB.initDB [MemDB.DBOp.create MemDB.exUser "t1"]) ∧
    PyDict.dget MemDB.exDB₁.users "user_1001" =
      some (MemDB.mkRecord MemDB.exUser "user_1001" "t1") ∧
    PyDict.dget ((MemDB.updateUser MemDB.exDB₁ "user_1001" MemDB.exUpd "t2").1).users_by_email
      "alice.new@hotel.com" = some "user_1001" := by
  refine ⟨C2_index_agreement.1 _, by decide, ?_⟩
  exact C2_index_agreement.2 MemDB.exDB₁ "user_1001" MemDB.exUpd "t2" "alice.new@hotel.com"
    (MemDB.mkRecord MemDB.exUser "user_1001" "t1") (by decide) (by decide)

namespace MemDB

open PyDict

theorem emailDup_eq_false {db : DB} {em : Option String} {e : String}
    (hem : em = some e) (hfree : dget db.users_by_email e = none) :
    emailDup db em = false := by
  rw [hem]
  unfold emailDup
  dsimp only
  rw [hfree]
  simp

theorem emailDup_eq_true {db : DB} {em : Option String} {e uid : String}
    (hem : em = some e) (hne : e ≠ "")
    (hidx : dget db.users_by_email e = some uid) :
    emailDup db em = true := by
  rw [hem]
  unfold emailDup
  dsimp only
  rw [hidx]
  simp [hne]

theorem bool_eq_false_of_ne_true {b : Bool} (h : ¬b = true) : b = false := by
  cases b
  · rfl
  · exact absurd rfl h

theorem createOk_get {db : DB} {ud : UserInput} (now : String)
    (hdup : emailDup db ud.email = false) :
    dget ((createUser db ud now).1).users (newUid db) =
      some (mkRecord ud (newUid db) now) := by
  rw [createUser_ok now hdup]
  dsimp only
  rw [updateIndexes_users]
  exact dget_dput_self _ _ _

theorem createOk_email_index {db : DB} {ud : UserInput} {e : String} (now : String)
    (hdup : emailDup db ud.email = false) (he : ud.email = some e) :
    dget ((createUser db ud now).1).users_by_email e = some (newUid db) := by
  rw [createUser_ok now hdup]
  dsimp only
  rw [updateIndexes_email]
  have hre : (mkRecord ud (newUid db) now).email = some e := he
  rw [hre]
  dsimp only
  exact dget_dput_self _ _ _

end MemDB

/-- C9: round-trip — when `create_user` succeeds on data carrying an email,
reading the result back by the generated identifier (`get_user`) and by the
unique-field index (`get_user_by_email`) both return exactly the created
record, so all field values are identical. -/
theorem C9_create_roundtrip (db : MemDB.DB) (ud : MemDB.UserInput)
    (now e : String) (r : MemDB.UserRecord)
    (hemail : ud.email = some e)
    (hok : (MemDB.createUser db ud now).2 = Except.ok r) :
    MemDB.getUser (MemDB.createUser db ud now).1 r.user_id = some r ∧
    MemDB.getUserByEmail (MemDB.createUser db ud now).1 e = some r := by
  by_cases hdup : MemDB.emailDup db ud.email = true
  · rw [MemDB.createUser_dup now hdup] at hok
    exact absurd hok (by simp)
  · have hdup₂ := MemDB.bool_eq_false_of_ne_true hdup
    have hok₂ := hok
    rw [MemDB.createUser_ok now hdup₂] at hok₂
    dsimp only at hok₂
    injection hok₂ with hok₂
    subst hok₂
    constructor
    · show MemDB.getUser (MemDB.createUser db ud now).1 (MemDB.newUid db) = _
      exact MemDB.createOk_get now hdup₂
    · unfold MemDB.getUserByEmail
      rw [MemDB.createOk_email_index now hdup₂ hemail]
      exact MemDB.createOk_get now hdup₂

/-- C9 (witness): the round-trip theorem applied to creating `exUser` in a
fresh database. -/
theorem C9_witness :
    (MemDB.exUser.email = some "alice@hotel.com" ∧
      (MemDB.createUser MemDB.initDB MemDB.exUser "t1").2 =
        Except.ok (MemDB.mkRecord MemDB.exUser "user_1001" "t1")) ∧
    MemDB.getUser MemDB.exDB₁ (MemDB.mkRecord MemDB.exUser "user_1001" "t1").user_id =
      some (MemDB.mkRecord MemDB.exUser "user_1001" "t1") ∧
    MemDB.getUserByEmail MemDB.exDB₁ "alice@hotel.com" =
      some (MemDB.mkRecord MemDB.exUser "user_1001" "t1") :=
  ⟨⟨by decide, by rfl⟩,
    C9_create_roundtrip MemDB.initDB MemDB.exUser "t1" "alice@hotel.com"
      (MemDB.mkRecord MemDB.exUser "user_1001" "t1") (by decide) (by rfl)⟩

/-- C6: for every store state in which the email is not yet indexed (and the
id counter is ahead of the stored keys, as in every reachable state), creating
a first user with that email succeeds and grows the users table by exactly
one row, and a second create carrying the identical (non-empty) email raises
the duplicate `ValueError`, leaving the users table unchanged. -/
theorem C6_duplicate_create (db : MemDB.DB) (ud₁ ud₂ : MemDB.UserInput)
    (e now₁ now₂ : String)
    (he₁ : ud₁.email = some e) (he₂ : ud₂.email = some e) (hne : e ≠ "")
    (hfree : PyDict.dget db.users_by_email e = none)
    (hK : MemDB.KeysBounded db) :
    (MemDB.createUser db ud₁ now₁).2 =
      Except.ok (MemDB.mkRecord ud₁ (MemDB.newUid db) now₁) ∧
    ((MemDB.createUser db ud₁ now₁).1).users.length = db.users.length + 1 ∧
    (MemDB.createUser (MemDB.createUser db ud₁ now₁).1 ud₂ now₂).2 =
      Except.error (MemDB.DBError.duplicateEmail e) ∧
    (MemDB.createUser (MemDB.createUser db ud₁ now₁).1 ud₂ now₂).1.users =
      ((MemDB.createUser db ud₁ now₁).1).users := by
  have hdup₁ := MemDB.emailDup_eq_false he₁ hfree
  have hidx := MemDB.createOk_email_index now₁ hdup₁ he₁
  have hdup₂ := MemDB.emailDup_eq_true he₂ hne hidx
  refine ⟨?_, ?_, ?_, ?_⟩
  · rw [MemDB.createUser_ok now₁ hdup₁]
  · rw [MemDB.createUser_ok now₁ hdup₁]
    dsimp only
    rw [MemDB.updateIndexes_users]
    exact PyDict.length_dput_fresh _ (MemDB.fresh_id hK)
  · rw [MemDB.createUser_dup now₂ hdup₂]
    dsimp only
    rw [he₂]
    rfl
  · rw [MemDB.createUser_dup now₂ hdup₂]

/-- C6 (witness): the duplicate-create theorem applied to two creates with
email `alice@hotel.com` against a fresh database. -/
theorem C6_witness :
    (MemDB.exUser.email = some "alice@hotel.com" ∧ "alice@hotel.com" ≠ "" ∧
      PyDict.dget MemDB.initDB.users_by_email "alice@hotel.com" = none) ∧
    (MemDB.createUser MemDB.initDB MemDB.exUser "t1").2 =
      Except.ok (MemDB.mkRecord MemDB.exUser "user_1001" "t1") ∧
    MemDB.exDB₁.users.length = MemDB.initDB.users.length + 1 ∧
    (MemDB.createUser MemDB.exDB₁ MemDB.exUser "t2").2 =
      Except.error (MemDB.DBError.duplicateEmail "alice@hotel.com") ∧
    (MemDB.createUser MemDB.exDB₁ MemDB.exUser "t2").1.users = MemDB.exDB₁.users :=
  ⟨⟨by decide, by decide, by decide⟩,
    C6_duplicate_create MemDB.initDB MemDB.exUser MemDB.exUser "alice@hotel.com" "t1" "t2"
      (by decide) (by decide) (by decide) (by decide) MemDB.keysBounded_init⟩

/-- C10 (implicit): soft deletion never frees a unique field — after a user
with a non-empty email is created and then soft-deleted, the email index
entry survives: `get_user_by_email` still returns the record (now with status
`"deleted"` and a `deleted_at` stamp), and a later `create_user` carrying the
same email still raises the duplicate `ValueError`. -/
theorem C10_soft_delete_keeps_email (db : MemDB.DB) (ud ud₂ : MemDB.UserInput)
    (e now₁ now₂ now₃ : String)
    (he : ud.email = some e) (hne : e ≠ "")
    (hfree : PyDict.dget db.users_by_email e = none)
    (he₂ : ud₂.email = some e) :
    (MemDB.deleteUser (MemDB.createUser db ud now₁).1 (MemDB.newUid db) now₂).2 = true ∧
    MemDB.getUserByEmail
        (MemDB.deleteUser (MemDB.createUser db ud now₁).1 (MemDB.newUid db) now₂).1 e =
      some { MemDB.mkRecord ud (MemDB.newUid db) now₁ with
              status := "deleted", deleted_at := some now₂ } ∧
    (MemDB.createUser
        (MemDB.deleteUser (MemDB.createUser db ud now₁).1 (MemDB.newUid db) now₂).1
        ud₂ now₃).2 =
      Except.error (MemDB.DBError.duplicateEmail e) := by
  have hdup₁ := MemDB.emailDup_eq_false he hfree
  have hget₁ := @MemDB.createOk_get db ud now₁ hdup₁
  have hidx := MemDB.createOk_email_index now₁ hdup₁ he
  have hdel : MemDB.deleteUser (MemDB.createUser db ud now₁).1 (MemDB.newUid db) now₂ =
      ({ (MemDB.createUser db ud now₁).1 with
          users := PyDict.dput ((MemDB.createUser db ud now₁).1).users (MemDB.newUid db)
            ({ MemDB.mkRecord ud (MemDB.newUid db) now₁ with
                status := "deleted", deleted_at := some now₂ }) }, true) := by
    unfold MemDB.deleteUser
    rw [hget₁]
  refine ⟨by rw [hdel], ?_, ?_⟩
  · rw [hdel]
    unfold MemDB.getUserByEmail
    dsimp only
    rw [hidx]
    exact PyDict.dget_dput_self _ _ _
  · have hidx₂ : PyDict.dget
        ((MemDB.deleteUser (MemDB.createUser db ud now₁).1 (MemDB.newUid db) now₂).1).users_by_email e =
        some (MemDB.newUid db) := by
      rw [hdel]
      exact hidx
    have hdup₂ := MemDB.emailDup_eq_true he₂ hne hidx₂
    rw [MemDB.createUser_dup now₃ hdup₂]
    dsimp only
    rw [he₂]
    rfl

/-- C10 (witness): create `exUser`, soft-delete `user_1001`, then attempt a
second create with the same email against the resulting database. -/
theorem C10_witness :
    (MemDB.exUser.email = some "alice@hotel.com" ∧ "alice@hotel.com" ≠ "" ∧
      PyDict.dget MemDB.initDB.users_by_email "alice@hotel.com" = none) ∧
    (MemDB.deleteUser MemDB.exDB₁ "user_1001" "t2").2 = true ∧
    MemDB.getUserByEmail (MemDB.deleteUser MemDB.exDB₁ "user_1001" "t2").1 "alice@hotel.com" =
      some { MemDB.mkRecord MemDB.exUser "user_1001" "t1" with
              status := "deleted", deleted_at := some "t2" } ∧
    (MemDB.createUser (MemDB.deleteUser MemDB.exDB₁ "user_1001" "t2").1 MemDB.exUser "t3").2 =
      Except.error (MemDB.DBError.duplicateEmail "alice@hotel.com") :=
  ⟨⟨by decide, by decide, by decide⟩,
    C10_soft_delete_keeps_email MemDB.initDB MemDB.exUser MemDB.exUser
      "alice@hotel.com" "t1" "t2" "t3" (by decide) (by decide) (by decide) (by decide)⟩

namespace PyStr

/-- Python ASCII whitespace, the characters stripped by `str.strip()` and
matched by the regex class `\s` on the ASCII inputs this flow handles. -/
def isSpaceChar (c : Char) : Bool :=
  c = ' ' || c = '\t' || c = '\n' || c = '\r' || c = '\x0b' || c = '\x0c'

/-- Python `s.strip()`. -/
def strip (s : String) : String :=
  (((s.data.dropWhile isSpaceChar).reverse.dropWhile isSpaceChar).reverse).asString

def lowerChar (c : Char) : Char :=
  if 'A' ≤ c ∧ c ≤ 'Z' then Char.ofNat (c.toNat + 32) else c

/-- Python `s.lower()` (ASCII range, which is all this flow needs). -/
def lower (s : String) : String := (s.data.map lowerChar).asString

def splitOnCharAux (sep : Char) : List Char → List (List Char)
  | [] => [[]]
  | c :: cs =>
    let r := splitOnCharAux sep cs
    if c = sep then [] :: r
    else
      match r with
      | h :: t => (c :: h) :: t
      | [] => [[c]]

/-- Python `s.split(sep)` for a one-character separator (keeps empty parts). -/
def splitOnChar (sep : Char) (s : String) : List String :=
  (splitOnCharAux sep s.data).map List.asString

def isPrefixOfL : List Char → List Char → Bool
  | [], _ => true
  | _ :: _, [] => false
  | a :: as, b :: bs => a = b && isPrefixOfL as bs

def containsSubAux (needle : List Char) : List Char → Bool
  | [] => isPrefixOfL needle []
  | c :: cs => isPrefixOfL needle (c :: cs) || containsSubAux needle cs

/-- Python `needle in hay` for strings (substring test). -/
def containsSub (hay needle : String) : Bool := containsSubAux needle.data hay.data

def wordsAux : List Char → List Char → List (List Char)
  | [], acc => if acc.isEmpty then [] else [acc.reverse]
  | c :: cs, acc =>
    if isSpaceChar c then
      if acc.isEmpty then wordsAux cs [] else acc.reverse :: wordsAux cs []
    else wordsAux cs (c :: acc)

/-- Python `s.split()` with no separator: split on whitespace runs, no empty
parts. -/
def words (s : String) : List String := (wordsAux s.data []).map List.asString

def phoneClass (c : Char) : Bool :=
  c.isDigit || isSpaceChar c || c = '-' || c = '(' || c = ')'

/-- The phone regex of `_extract_user_info_from_query`:
`re.match` against `^[+]?[0-9\s\-\(\)]{10,}$`. -/
def phoneMatch (s : String) : Bool :=
  let rest := match s.data with
    | '+' :: t => t
    | l => l
  decide (rest.length ≥ 10) && rest.all phoneClass

end PyStr

namespace UM

/-- A user record as stored by `UserDataManager` — the template of
`create_user_template` with the `personal_info` sub-dict flattened into its
six keys. -/
structure User where
  first_name : String := ""
  last_name : String := ""
  email : String := ""
  phone : String := ""
  level : String := ""
  department : String := ""
  role : String := ""
  property : String := ""
  address1 : String := ""
  address2 : String := ""
  city : String := ""
  state : String := ""
  country : String := ""
  language : String := ""
  status : String := "active"
  created_at : String := ""
  last_updated : String := ""
deriving DecidableEq

/-- A Python dict of user fields (`none` = key absent): the shape of a
session data payload or extraction result in the interactive flow.  The keys
`action`, `user_id` and `user_name` occur in session data but are not part of
the user template, so `add_user` ignores them (as the source does: they match
neither the template keys nor `personal_info`). -/
structure UserDict where
  action : Option String := none
  first_name : Option String := none
  last_name : Option String := none
  email : Option String := none
  phone : Option String := none
  level : Option String := none
  department : Option String := none
  role : Option String := none
  property : Option String := none
  address1 : Option String := none
  address2 : Option String := none
  city : Option String := none
  state : Option String := none
  country : Option String := none
  language : Option String := none
  user_id : Option String := none
  user_name : Option String := none
deriving DecidableEq

/-- `UserDataManager` state: the users dict and the next auto-increment id. -/
structure Store where
  users : List (String × User)
  next_user_id : Nat
deriving DecidableEq

/-- A fresh manager over an empty users file. -/
def initStore : Store := { users := [], next_user_id := 1 }

/-- Embeds `user_exists_by_email_or_phone`: first user matching the email
case-insensitively or the phone exactly (empty search values never match). -/
def userExists (users : List (String × User)) (email phone : String) : Option String :=
  match users with
  | [] => none
  | (uid, u) :: t =>
      if decide (email ≠ "") && (PyStr.lower u.email = PyStr.lower email) then some uid
      else if decide (phone ≠ "") && (u.phone = phone) then some uid
      else userExists t email phone

/-- The validation errors `validate_user_data` can report. -/
inductive VErr where
  | firstNameRequired
  | lastNameRequired
  | contactRequired
  | duplicateUser (uid : String)
deriving DecidableEq

/-- Python `not user_data.get(key, '').strip()`. -/
def blankF (o : Option String) : Bool := PyStr.strip (o.getD "") = ""

/-- Embeds `UserDataManager.validate_user_data`. -/
def validate_user_data (users : List (String × User)) (d : UserDict) :
    Bool × List VErr :=
  let errs₁ : List VErr := if blankF d.first_name then [VErr.firstNameRequired] else []
  let errs₂ := errs₁ ++ (if blankF d.last_name then [VErr.lastNameRequired] else [])
  let email := PyStr.strip (d.email.getD "")
  let phone := PyStr.strip (d.phone.getD "")
  let errs₃ := errs₂ ++ (if email = "" && phone = "" then [VErr.contactRequired] else [])
  let errs₄ := errs₃ ++
    (if email ≠ "" ∨ phone ≠ "" then
      match userExists users email phone with
      | some uid => [VErr.duplicateUser uid]
      | none => []
    else [])
  (errs₄.isEmpty, errs₄)

/-- Python `f"user_{n:03d}"`. -/
def pad3 (n : Nat) : String :=
  let s := Nat.repr n
  if s.length < 3 then (List.replicate (3 - s.length) '0').asString ++ s else s

def mkUserId (n : Nat) : String := "user_" ++ pad3 n

/-- The template of `create_user_template` updated with the provided data:
keys present in the dict overwrite the template defaults; unknown keys
(`action`, `user_id`, `user_name`) are ignored. -/
def fillTemplate (d : UserDict) (now : String) : User :=
  { first_name := d.first_name.getD "", last_name := d.last_name.getD "",
    email := d.email.getD "", phone := d.phone.getD "",
    level := d.level.getD "", department := d.department.getD "",
    role := d.role.getD "", property := d.property.getD "",
    address1 := d.address1.getD "", address2 := d.address2.getD "",
    city := d.city.getD "", state := d.state.getD "",
    country := d.country.getD "", language := d.language.getD "",
    status := "active", created_at := now, last_updated := now }

/-- Embeds `UserDataManager.add_user`: validate, then fill the template,
store under `user_{next:03d}` and bump the counter.  Result carries
(success, generated id) and the updated store; the human-readable message is
not modelled. -/
def add_user (st : Store) (d : UserDict) (now : String) :
    (Bool × Option String) × Store :=
  if (validate_user_data st.users d).1 = false then ((false, none), st)
  else
    let uid := mkUserId st.next_user_id
    let u := fillTemplate d now
    ((true, some uid),
      { users := PyDict.dput st.users uid u, next_user_id := st.next_user_id + 1 })

/-- Embeds `UserDataManager.delete_user`: a HARD delete — the row is removed
from the users dict (`del self.users[user_id]`). -/
def delete_user (st : Store) (uid : String) : Bool × Store :=
  match PyDict.dget st.users uid with
  | none => (false, st)
  | some _ => (true, { st with users := PyDict.ddel st.users uid })

end UM

namespace Flow

/-- The `ConversationState` enum of `session_manager.py`. -/
inductive ConversationState where
  | IDLE
  | COLLECTING_USER_DATA
  | CONFIRMING_USER_CREATE
  | COLLECTING_USER_UPDATES
  | CONFIRMING_USER_UPDATE
  | CONFIRMING_USER_DELETE
  | CONFIRMING_USER_BLOCK
  | COLLECTING_PASSWORD_RESET
  | COLLECTING_SERVICE_DATA
  | CONFIRMING_SERVICE_CREATE
deriving DecidableEq

/-- A session as kept by `SessionManager`: conversation state plus the data
payload (the `context`, `last_action` and `pending_confirmation` entries are
never read by the flows modelled here). -/
structure Session where
  state : ConversationState
  data : UM.UserDict
deriving DecidableEq

/-- A fresh (or cleared) session: `IDLE` with empty data. -/
def initSession : Session := { state := ConversationState.IDLE, data := {} }

/-- Python `old.update(new)` on the data dict: keys present in `new` win. -/
def ov (n o : Option String) : Option String :=
  match n with
  | some v => some v
  | none => o

def mergeData (old new : UM.UserDict) : UM.UserDict :=
  { action := ov new.action old.action,
    first_name := ov new.first_name old.first_name,
    last_name := ov new.last_name old.last_name,
    email := ov new.email old.email,
    phone := ov new.phone old.phone,
    level := ov new.level old.level,
    department := ov new.department old.department,
    role := ov new.role old.role,
    property := ov new.property old.property,
    address1 := ov new.address1 old.address1,
    address2 := ov new.address2 old.address2,
    city := ov new.city old.city,
    state := ov new.state old.state,
    country := ov new.country old.country,
    language := ov new.language old.language,
    user_id := ov new.user_id old.user_id,
    user_name := ov new.user_name old.user_name }

/-- `SessionManager.set_state` with a data argument (`data.update(...)`). -/
def setStateData (s : Session) (st : ConversationState) (d : UM.UserDict) : Session :=
  { state := st, data := mergeData s.data d }

/-- The combined system state the interactive manager acts on: the session
(from the global `session_manager`) and the user store (the global
`user_manager`). -/
structure SysState where
  session : Session
  store : UM.Store
deriving DecidableEq

/-- The `AttributeError` raised when a dispatched handler method does not
exist on `InteractiveUserManager`. -/
inductive PyErr where
  | attributeError (method : String)
deriving DecidableEq

/-- The regex-based extraction paths that are opaque to the claims: the
non-comma branch of `_extract_user_info_from_query` (`fallback`), the extra
`key: value` / single-field extraction of `_collect_user_data`
(`collectExtra`, given the query, the `_extract_user_info_from_query` result
and the current session data), and `_find_user_from_query` (`findUser`).
Each returns only field data; the theorems below hold for every choice. -/
structure Extractors where
  fallback : String → UM.UserDict
  collectExtra : String → UM.UserDict → UM.UserDict → UM.UserDict
  findUser : String → UM.Store → Option (String × UM.User)

/-- Trivial instantiation of the opaque extraction paths (used by concrete
runs whose inputs never reach them). -/
def ext₀ : Extractors :=
  { fallback := fun _ => {}, collectExtra := fun _ e _ => e, findUser := fun _ _ => none }

/-- Embeds `_looks_like_user_data`. -/
def looksLikeUserData (query : String) : Bool :=
  if PyStr.containsSub query "," && PyStr.containsSub query "@" then true
  else
    let parts := PyStr.splitOnChar ',' query
    if decide (parts.length ≥ 3) then
      parts.any fun part =>
        let p := PyStr.strip part
        PyStr.containsSub p "@" ||
          (let cleaned := p.data.filter
            (fun c => !(c = '+' || c = '-' || c = '(' || c = ')' || c = ' '))
           (!cleaned.isEmpty) && cleaned.all Char.isDigit && decide (p.length ≥ 10))
    else false

def deptKeywords : List String :=
  ["housekeeping", "front", "maintenance", "admin", "manager", "staff", "supervisor"]

/-- One step of the comma-separated loop of `_extract_user_info_from_query`
(parts arrive already stripped). -/
def commaPartStep (i : Nat) (part : String) (d : UM.UserDict) : UM.UserDict :=
  if i = 0 && PyStr.containsSub part " " then
    let nameParts := PyStr.words part
    if decide (nameParts.length ≥ 2) then
      { d with first_name := some (nameParts.headD ""),
               last_name := some (String.intercalate " " nameParts.tail) }
    else d
  else if PyStr.containsSub part "@" then { d with email := some part }
  else if PyStr.phoneMatch part then { d with phone := some part }
  else
    let pl := PyStr.lower part
    if deptKeywords.any (fun k => PyStr.containsSub pl k) then
      if PyStr.containsSub pl "manager" then
        let d₂ := { d with role := some "Manager" }
        if PyStr.containsSub pl "housekeeping" then
          { d₂ with department := some "Housekeeping" }
        else if PyStr.containsSub pl "front" then
          { d₂ with department := some "Front Desk" }
        else if PyStr.containsSub pl "maintenance" then
          { d₂ with department := some "Maintenance" }
        else d₂
      else if PyStr.containsSub pl "staff" then
        let d₂ := { d with role := some "Staff" }
        if PyStr.containsSub pl "housekeeping" then
          { d₂ with department := some "Housekeeping" }
        else d₂
      else if PyStr.containsSub pl "supervisor" then { d with role := some "Supervisor" }
      else
        if PyStr.containsSub pl "housekeeping" then
          { d with department := some "Housekeeping" }
        else if PyStr.containsSub pl "front" then
          { d with department := some "Front Desk" }
        else if PyStr.containsSub pl "maintenance" then
          { d with department := some "Maintenance" }
        else d
    else d

/-- The comma branch of `_extract_user_info_from_query`. -/
def commaExtract (query : String) : UM.UserDict :=
  let parts := (PyStr.splitOnChar ',' query).map PyStr.strip
  parts.enum.foldl (fun d ip => commaPartStep ip.1 ip.2 d) {}

def casualPhrases : List String :=
  ["i wanna", "i want to", "i would like", "can you", "please", "help me"]

/-- Embeds `_extract_user_info_from_query`: empty for casual add requests,
the comma branch for comma-separated data, otherwise the regex fallback
(opaque, see `Extractors`). -/
def extractUserInfo (ext : Extractors) (query : String) : UM.UserDict :=
  let ql := PyStr.lower query
  if casualPhrases.any (fun p => PyStr.containsSub ql p) && PyStr.containsSub ql "add" then {}
  else if PyStr.containsSub query "," then commaExtract query
  else ext.fallback query

/-- The missing-required-fields check of `_request_missing_user_info`:
first name, last name, and the email-or-phone requirement, each judged by
`not data.get(field, '').strip()`. -/
def missingRequired (d : UM.UserDict) : Bool :=
  UM.blankF d.first_name || UM.blankF d.last_name ||
    (UM.blankF d.email && UM.blankF d.phone)

/-- Embeds `_request_missing_user_info`: with anything missing the session is
left as it is (a prompt is emitted); otherwise the state moves to
`CONFIRMING_USER_CREATE` with the data untouched. -/
def requestMissingUserInfo (s : Session) : Session :=
  if missingRequired s.data then s
  else { s with state := ConversationState.CONFIRMING_USER_CREATE }

/-- Embeds `_start_user_creation`: clear the session, store the extraction
result under `COLLECTING_USER_DATA` with `action = "create_user"`, then run
the missing-info check. -/
def startUserCreation (ext : Extractors) (st : SysState) (query : String) : SysState :=
  let extracted := extractUserInfo ext query
  let s₁ := setStateData initSession ConversationState.COLLECTING_USER_DATA
    { extracted with action := some "create_user" }
  { st with session := requestMissingUserInfo s₁ }

/-- Embeds `_collect_user_data`. -/
def collectUserData (ext : Extractors) (st : SysState) (query : String) : SysState :=
  if PyStr.strip (PyStr.lower query) = "cancel" then { st with session := initSession }
  else
    let newData := ext.collectExtra query (extractUserInfo ext query) st.session.data
    let s₁ := { st.session with data := mergeData st.session.data newData }
    { st with session := requestMissingUserInfo s₁ }

def affirmatives : List String := ["yes", "y", "confirm", "create", "proceed"]

def negatives : List String := ["no", "n", "cancel", "stop"]

/-- Embeds `_confirm_user_creation`.  On an affirmative reply `add_user` runs
on the session data (minus `action`, which `add_user` ignores anyway) and the
session is cleared whether or not creation succeeded; on a negative reply the
session is cleared and the store untouched; otherwise new data reopens
collection, and no recognised data leaves everything unchanged. -/
def confirmUserCreation (ext : Extractors) (st : SysState) (query now : String) : SysState :=
  let response := PyStr.strip (PyStr.lower query)
  if affirmatives.contains response then
    let r := UM.add_user st.store st.session.data now
    { session := initSession, store := r.2 }
  else if negatives.contains response then
    { st with session := initSession }
  else
    let newData := extractUserInfo ext query
    if newData = ({} : UM.UserDict) then st
    else
      let s₁ := { st.session with
        data := mergeData st.session.data newData,
        state := ConversationState.COLLECTING_USER_DATA }
      { st with session := requestMissingUserInfo s₁ }

/-- Embeds `_start_user_editing` (with `_find_user_from_query` opaque): on a
hit the session moves to `COLLECTING_USER_UPDATES`; on a miss only a prompt
is returned. -/
def startUserEditing (ext : Extractors) (st : SysState) (query : String) : SysState :=
  match ext.findUser query st.store with
  | some (uid, u) =>
      let d : UM.UserDict :=
        { action := some "update_user", user_id := some uid,
          user_name := some (u.first_name ++ " " ++ u.last_name) }
      { st with session := setStateData st.session ConversationState.COLLECTING_USER_UPDATES d }
  | none => st

/-- Embeds `_handle_conversation_state`.  The states whose handler methods
are not defined anywhere on `InteractiveUserManager`
(`_collect_user_updates`, `_confirm_user_update`, `_confirm_user_deletion`,
`_confirm_user_block_unblock`) raise `AttributeError`; the final `else`
clears the session. -/
def handleConversationState (ext : Extractors) (st : SysState) (query now : String) :
    Except PyErr SysState :=
  match st.session.state with
  | ConversationState.COLLECTING_USER_DATA => Except.ok (collectUserData ext st query)
  | ConversationState.CONFIRMING_USER_CREATE => Except.ok (confirmUserCreation ext st query now)
  | ConversationState.COLLECTING_USER_UPDATES =>
      Except.error (PyErr.attributeError "_collect_user_updates")
  | ConversationState.CONFIRMING_USER_UPDATE =>
      Except.error (PyErr.attributeError "_confirm_user_update")
  | ConversationState.CONFIRMING_USER_DELETE =>
      Except.error (PyErr.attributeError "_confirm_user_deletion")
  | ConversationState.CONFIRMING_USER_BLOCK =>
      Except.error (PyErr.attributeError "_confirm_user_block_unblock")
  | _ => Except.ok { st with session := initSession }

def addPhrases : List String :=
  ["add user", "create user", "new user", "wanna add", "want to add", "add a user",
   "create a user", "add him", "add her", "add this", "add to system", "add contact"]

def editPhrases : List String := ["edit user", "update user", "modify user"]

def deletePhrases : List String := ["delete user", "remove user"]

def blockPhrases : List String := ["block user", "unblock user"]

def resetPhrases : List String := ["reset password"]

def clearCommands : List String := ["reset", "clear", "start over", "cancel"]

def anyPhraseIn (ql : String) (phrases : List String) : Bool :=
  phrases.any fun p => PyStr.containsSub ql p

/-- Embeds `InteractiveUserManager.process_user_request`, the main entry
point.  Branches whose handlers do not exist raise `AttributeError`; the
general-query branch only reads the store or defers to the LLM wrapper, so it
changes neither session nor store. -/
def processUserRequest (ext : Extractors) (st : SysState) (query now : String) :
    Except PyErr SysState :=
  if st.session.state ≠ ConversationState.IDLE then
    handleConversationState ext st query now
  else
    let ql := PyStr.lower query
    if looksLikeUserData query then Except.ok (startUserCreation ext st query)
    else if anyPhraseIn ql addPhrases then Except.ok (startUserCreation ext st query)
    else if anyPhraseIn ql editPhrases then Except.ok (startUserEditing ext st query)
    else if anyPhraseIn ql deletePhrases then
      Except.error (PyErr.attributeError "_start_user_deletion")
    else if anyPhraseIn ql blockPhrases then
      Except.error (PyErr.attributeError "_start_user_block_unblock")
    else if anyPhraseIn ql resetPhrases then
      Except.error (PyErr.attributeError "_start_password_reset")
    else if clearCommands.contains (PyStr.strip (PyStr.lower query)) then
      Except.ok { st with session := initSession }
    else Except.ok st

/-- One processed message; a raised `AttributeError` happens before any
session or store mutation, so it leaves the state untouched. -/
def step (ext : Extractors) (now : String) (st : SysState) (query : String) : SysState :=
  match processUserRequest ext st query now with
  | Except.ok st₂ => st₂
  | Except.error _ => st

/-- A whole conversation: process the messages in order. -/
def run (ext : Extractors) (now : String) (st : SysState) (msgs : List String) : SysState :=
  msgs.foldl (step ext now) st

/-- The initial system state: fresh session, empty user store. -/
def initState : SysState := { session := initSession, store := UM.initStore }

end Flow

namespace PyDict

theorem dput_fresh_append {α : Type} {l : List (String × α)} {k : String} (v : α)
    (h : dget l k = none) : dput l k v = l ++ [(k, v)] := by
  induction l with
  | nil => rfl
  | cons hd t ih =>
    obtain ⟨k₃, v₃⟩ := hd
    by_cases hk : k₃ = k
    · simp [dget, hk] at h
    · simp only [dget, if_neg hk] at h
      simp [dput, if_neg hk, ih h]

theorem dget_ddel_self_nodup {α : Type} {l : List (String × α)} {k : String}
    (h : (l.map Prod.fst).Nodup) : dget (ddel l k) k = none := by
  induction l with
  | nil => rfl
  | cons hd t ih =>
    obtain ⟨k₃, v₃⟩ := hd
    simp only [List.map_cons, List.nodup_cons] at h
    by_cases hk : k₃ = k
    · rw [show ddel ((k₃, v₃) :: t) k = t from by simp [ddel, hk]]
      apply dget_eq_none_of_fresh
      intro kv hkv hkk
      have hmem := List.mem_map_of_mem Prod.fst hkv
      rw [hkk] at hmem
      rw [← hk] at hmem
      exact h.1 hmem
    · rw [show ddel ((k₃, v₃) :: t) k = (k₃, v₃) :: ddel t k from by simp [ddel, hk]]
      simp only [dget, if_neg hk]
      exact ih h.2

end PyDict

namespace Flow

/-- All required fields of the pending create payload are non-blank: first
name, last name, and at least one of email and phone.  This is exactly what
the collection loop checks before moving to confirmation, and the
field-validity part of `validate_user_data` (the source has no stronger
per-field format validation). -/
def requiredOk (d : UM.UserDict) : Prop :=
  UM.blankF d.first_name = false ∧ UM.blankF d.last_name = false ∧
    (UM.blankF d.email = false ∨ UM.blankF d.phone = false)

/-- The C1 session invariant: confirmation-pending only with all required
fields filled. -/
def SInv (s : Session) : Prop :=
  s.state = ConversationState.CONFIRMING_USER_CREATE → requiredOk s.data

def Inv (st : SysState) : Prop := SInv st.session

theorem requiredOk_of_not_missing {d : UM.UserDict} (h : missingRequired d = false) :
    requiredOk d := by
  unfold missingRequired at h
  unfold requiredOk
  cases hb₁ : UM.blankF d.first_name <;> rw [hb₁] at h <;>
    cases hb₂ : UM.blankF d.last_name <;> rw [hb₂] at h <;>
      cases hb₃ : UM.blankF d.email <;> rw [hb₃] at h <;>
        cases hb₄ : UM.blankF d.phone <;> rw [hb₄] at h <;> simp_all

theorem sinv_initSession : SInv initSession := by
  intro h
  exact ConversationState.noConfusion h

theorem sinv_requestMissing {s : Session}
    (h : s.state ≠ ConversationState.CONFIRMING_USER_CREATE) :
    SInv (requestMissingUserInfo s) := by
  unfold requestMissingUserInfo
  by_cases hm : missingRequired s.data = true
  · rw [if_pos hm]
    intro hs
    exact absurd hs h
  · have hm₂ : missingRequired s.data = false := by
      cases hb : missingRequired s.data
      · rfl
      · exact absurd hb hm
    rw [if_neg hm]
    intro _
    exact requiredOk_of_not_missing hm₂

theorem sinv_startUserCreation (ext : Extractors) (st : SysState) (q : String) :
    SInv (startUserCreation ext st q).session := by
  unfold startUserCreation
  dsimp only
  apply sinv_requestMissing
  intro hc
  exact ConversationState.noConfusion hc

theorem sinv_collectUserData (ext : Extractors) {st : SysState} (q : String)
    (h : st.session.state = ConversationState.COLLECTING_USER_DATA) :
    SInv (collectUserData ext st q).session := by
  unfold collectUserData
  by_cases hc : PyStr.strip (PyStr.lower q) = "cancel"
  · rw [if_pos hc]
    exact sinv_initSession
  · rw [if_neg hc]
    dsimp only
    apply sinv_requestMissing
    show st.session.state ≠ ConversationState.CONFIRMING_USER_CREATE
    rw [h]
    intro hc₂
    exact ConversationState.noConfusion hc₂

theorem sinv_confirmUserCreation (ext : Extractors) {st : SysState} (q now : String)
    (h : SInv st.session) :
    SInv (confirmUserCreation ext st q now).session := by
  unfold confirmUserCreation
  dsimp only
  by_cases ha : affirmatives.contains (PyStr.strip (PyStr.lower q)) = true
  · rw [if_pos ha]
    exact sinv_initSession
  · rw [if_neg ha]
    by_cases hn : negatives.contains (PyStr.strip (PyStr.lower q)) = true
    · rw [if_pos hn]
      exact sinv_initSession
    · rw [if_neg hn]
      by_cases he : extractUserInfo ext q = ({} : UM.UserDict)
      · rw [if_pos he]
        exact h
      · rw [if_neg he]
        dsimp only
        apply sinv_requestMissing
        intro hc₂
        exact ConversationState.noConfusion hc₂

theorem sinv_startUserEditing (ext : Extractors) {st : SysState} (q : String)
    (h : SInv st.session) :
    SInv (startUserEditing ext st q).session := by
  unfold startUserEditing
  cases hf : ext.findUser q st.store with
  | none => exact h
  | some p =>
    obtain ⟨uid, u⟩ := p
    dsimp only
    intro hc
    exact ConversationState.noConfusion hc

theorem sinv_handleConversationState (ext : Extractors) {st : SysState} (q now : String)
    {st₂ : SysState} (h : SInv st.session)
    (heq : handleConversationState ext st q now = Except.ok st₂) :
    SInv st₂.session := by
  unfold handleConversationState at heq
  cases hs : st.session.state <;> rw [hs] at heq <;> dsimp only at heq
  case IDLE =>
    injection heq with heq
    rw [← heq]
    exact sinv_initSession
  case COLLECTING_USER_DATA =>
    injection heq with heq
    rw [← heq]
    exact sinv_collectUserData ext q hs
  case CONFIRMING_USER_CREATE =>
    injection heq with heq
    rw [← heq]
    exact sinv_confirmUserCreation ext q now h
  case COLLECTING_USER_UPDATES => cases heq
  case CONFIRMING_USER_UPDATE => cases heq
  case CONFIRMING_USER_DELETE => cases heq
  case CONFIRMING_USER_BLOCK => cases heq
  case COLLECTING_PASSWORD_RESET =>
    injection heq with heq
    rw [← heq]
    exact sinv_initSession
  case COLLECTING_SERVICE_DATA =>
    injection heq with heq
    rw [← heq]
    exact sinv_initSession
  case CONFIRMING_SERVICE_CREATE =>
    injection heq with heq
    rw [← heq]
    exact sinv_initSession

theorem sinv_processUserRequest (ext : Extractors) {st : SysState} (q now : String)
    {st₂ : SysState} (h : SInv st.session)
    (heq : processUserRequest ext st q now = Except.ok st₂) :
    SInv st₂.session := by
  unfold processUserRequest at heq
  by_cases hidle : st.session.state = ConversationState.IDLE
  · rw [if_neg (by rw [hidle]; exact fun hc => hc rfl)] at heq
    dsimp only at heq
    by_cases h₁ : looksLikeUserData q = true
    · rw [if_pos h₁] at heq
      injection heq with heq
      rw [← heq]
      exact sinv_startUserCreation ext st q
    · rw [if_neg h₁] at heq
      by_cases h₂ : anyPhraseIn (PyStr.lower q) addPhrases = true
      · rw [if_pos h₂] at heq
        injection heq with heq
        rw [← heq]
        exact sinv_startUserCreation ext st q
      · rw [if_neg h₂] at heq
        by_cases h₃ : anyPhraseIn (PyStr.lower q) editPhrases = true
        · rw [if_pos h₃] at heq
          injection heq with heq
          rw [← heq]
          exact sinv_startUserEditing ext q h
        · rw [if_neg h₃] at heq
          by_cases h₄ : anyPhraseIn (PyStr.lower q) deletePhrases = true
          · rw [if_pos h₄] at heq
            cases heq
          · rw [if_neg h₄] at heq
            by_cases h₅ : anyPhraseIn (PyStr.lower q) blockPhrases = true
            · rw [if_pos h₅] at heq
              cases heq
            · rw [if_neg h₅] at heq
              by_cases h₆ : anyPhraseIn (PyStr.lower q) resetPhrases = true
              · rw [if_pos h₆] at heq
                cases heq
              · rw [if_neg h₆] at heq
                by_cases h₇ : clearCommands.contains (PyStr.strip (PyStr.lower q)) = true
                · rw [if_pos h₇] at heq
                  injection heq with heq
                  rw [← heq]
                  exact sinv_initSession
                · rw [if_neg h₇] at heq
                  injection heq with heq
                  rw [← heq]
                  exact h
  · rw [if_pos hidle] at heq
    exact sinv_handleConversationState ext q now h heq

theorem inv_step (ext : Extractors) (now : String) (st : SysState) (q : String)
    (h : Inv st) : Inv (step ext now st q) := by
  unfold step
  cases heq : processUserRequest ext st q now with
  | ok st₂ => exact sinv_processUserRequest ext q now h heq
  | error e => exact h

theorem inv_run (ext : Extractors) (now : String) (msgs : List String) :
    ∀ st : SysState, Inv st → Inv (run ext now st msgs) := by
  induction msgs with
  | nil => intro st h; exact h
  | cons q rest ih =>
    intro st h
    exact ih (step ext now st q) (inv_step ext now st q h)

end Flow

namespace Flow

theorem processUserRequest_confirming {ext : Extractors} {st : SysState} (q now : String)
    (hs : st.session.state = ConversationState.CONFIRMING_USER_CREATE) :
    processUserRequest ext st q now = Except.ok (confirmUserCreation ext st q now) := by
  unfold processUserRequest
  rw [if_pos (by rw [hs]; intro hc; exact ConversationState.noConfusion hc)]
  unfold handleConversationState
  rw [hs]

theorem confirmUserCreation_yes {ext : Extractors} {st : SysState} {q : String} (now : String)
    (hq : affirmatives.contains (PyStr.strip (PyStr.lower q)) = true) :
    confirmUserCreation ext st q now =
      { session := initSession, store := (UM.add_user st.store st.session.data now).2 } := by
  unfold confirmUserCreation
  dsimp only
  rw [hq]
  rfl

theorem not_affirm_of_neg {s : String} (h : negatives.contains s = true) :
    affirmatives.contains s = false := by
  have hmem : s ∈ negatives := (List.elem_iff).1 h
  simp only [negatives, List.mem_cons, List.not_mem_nil, or_false] at hmem
  rcases hmem with rfl | rfl | rfl | rfl <;> decide

theorem confirmUserCreation_no {ext : Extractors} {st : SysState} {q : String} (now : String)
    (hq : negatives.contains (PyStr.strip (PyStr.lower q)) = true) :
    confirmUserCreation ext st q now = { st with session := initSession } := by
  have ha := not_affirm_of_neg hq
  unfold confirmUserCreation
  dsimp only
  rw [ha, hq]
  rfl

end Flow

namespace UM

theorem add_user_valid {st : Store} {d : UserDict} (now : String)
    (hv : (validate_user_data st.users d).1 = true) :
    add_user st d now =
      ((true, some (mkUserId st.next_user_id)),
        { users := PyDict.dput st.users (mkUserId st.next_user_id) (fillTemplate d now),
          next_user_id := st.next_user_id + 1 }) := by
  unfold add_user
  rw [if_neg (by rw [hv]; decide)]

end UM

/-- C3: from confirmation-pending with a payload that passes
`validate_user_data` against the current store (all required fields present,
no duplicate), an affirmative reply makes `add_user` append exactly one new
user under the next generated id and clears the session back to idle with
empty data.  The freshness hypothesis (the next generated id is not yet a
key) holds in every state `UserDataManager` actually reaches, since
`next_user_id` starts beyond the maximal stored id. -/
theorem C3_affirmative_creates_one (ext : Flow.Extractors) (st : Flow.SysState)
    (q now : String)
    (hstate : st.session.state = Flow.ConversationState.CONFIRMING_USER_CREATE)
    (hq : Flow.affirmatives.contains (PyStr.strip (PyStr.lower q)) = true)
    (hvalid : (UM.validate_user_data st.store.users st.session.data).1 = true)
    (hfresh : PyDict.dget st.store.users (UM.mkUserId st.store.next_user_id) = none) :
    Flow.processUserRequest ext st q now =
      Except.ok
        { session := Flow.initSession,
          store := { users := st.store.users ++
                      [(UM.mkUserId st.store.next_user_id,
                        UM.fillTemplate st.session.data now)],
                     next_user_id := st.store.next_user_id + 1 } } ∧
    ((UM.add_user st.store st.session.data now).2).users.length =
      st.store.users.length + 1 := by
  have hadd := @UM.add_user_valid st.store st.session.data now hvalid
  constructor
  · rw [Flow.processUserRequest_confirming q now hstate,
      Flow.confirmUserCreation_yes now hq, hadd]
    rw [PyDict.dput_fresh_append _ hfresh]
  · rw [hadd]
    dsimp only
    exact PyDict.length_dput_fresh _ hfresh

/-- A concrete confirmation-pending state with a complete payload over an
empty store. -/
def exConfirmState : Flow.SysState :=
  { session := { state := Flow.ConversationState.CONFIRMING_USER_CREATE,
                 data := { action := some "create_user", first_name := some "John",
                           last_name := some "Doe", email := some "john@example.com",
                           phone := some "5551234567", role := some "Manager" } },
    store := UM.initStore }

/-- C3 (witness): replying "yes" in the concrete confirmation-pending state
creates exactly `user_001` and clears the session. -/
theorem C3_witness :
    (exConfirmState.session.state = Flow.ConversationState.CONFIRMING_USER_CREATE ∧
      Flow.affirmatives.contains (PyStr.strip (PyStr.lower "yes")) = true ∧
      (UM.validate_user_data exConfirmState.store.users exConfirmState.session.data).1 = true ∧
      PyDict.dget exConfirmState.store.users
        (UM.mkUserId exConfirmState.store.next_user_id) = none) ∧
    Flow.processUserRequest Flow.ext₀ exConfirmState "yes" "t0" =
      Except.ok
        { session := Flow.initSession,
          store := { users := exConfirmState.store.users ++
                      [(UM.mkUserId exConfirmState.store.next_user_id,
                        UM.fillTemplate exConfirmState.session.data "t0")],
                     next_user_id := exConfirmState.store.next_user_id + 1 } } ∧
    ((UM.add_user exConfirmState.store exConfirmState.session.data "t0").2).users.length =
      exConfirmState.store.users.length + 1 :=
  ⟨⟨rfl, by decide, by decide, by decide⟩,
    C3_affirmative_creates_one Flow.ext₀ exConfirmState "yes" "t0" rfl
      (by decide) (by decide) (by decide)⟩

/-- C4: from confirmation-pending, a negative reply ("no", "n", "cancel",
"stop") leaves the user store untouched — no entity is created — and resets
the session to idle with empty data. -/
theorem C4_negative_discards (ext : Flow.Extractors) (st : Flow.SysState)
    (q now : String)
    (hstate : st.session.state = Flow.ConversationState.CONFIRMING_USER_CREATE)
    (hq : Flow.negatives.contains (PyStr.strip (PyStr.lower q)) = true) :
    Flow.processUserRequest ext st q now =
      Except.ok { st with session := Flow.initSession } := by
  rw [Flow.processUserRequest_confirming q now hstate,
    Flow.confirmUserCreation_no now hq]

/-- C4 (witness): replying "no" in the concrete confirmation-pending state
keeps the store empty and clears the session. -/
theorem C4_witness :
    (exConfirmState.session.state = Flow.ConversationState.CONFIRMING_USER_CREATE ∧
      Flow.negatives.contains (PyStr.strip (PyStr.lower "no")) = true) ∧
    Flow.processUserRequest Flow.ext₀ exConfirmState "no" "t0" =
      Except.ok { exConfirmState with session := Flow.initSession } :=
  ⟨⟨rfl, by decide⟩,
    C4_negative_discards Flow.ext₀ exConfirmState "no" "t0" rfl (by decide)⟩

/-- C1: the confirmation-pending invariant.  `Flow.Inv` states that whenever
the session is in `CONFIRMING_USER_CREATE`, first name, last name, and at
least one of email/phone are non-blank (after stripping) — the only notion
of field validity the create flow checks (`_request_missing_user_info` /
`validate_user_data` have no stronger per-field format check).  The invariant
holds of the initial idle state and is preserved by every processed message,
for every choice of the opaque regex-extraction functions, so no message
sequence can reach confirmation-pending with a required field empty. -/
theorem C1_confirm_requires_fields (ext : Flow.Extractors) (now : String)
    (st : Flow.SysState) (msgs : List String) (h : Flow.Inv st) :
    Flow.Inv (Flow.run ext now st msgs) :=
  Flow.inv_run ext now msgs st h

/-- C1 (witness): the invariant transported along the concrete one-message
run that fills every field and lands in confirmation-pending. -/
theorem C1_witness :
    Flow.Inv Flow.initState ∧
    Flow.Inv (Flow.run Flow.ext₀ "t0" Flow.initState
      ["John Doe, john@example.com, 5551234567, manager", "yes"]) :=
  ⟨fun h => Flow.ConversationState.noConfusion h,
    C1_confirm_requires_fields Flow.ext₀ "t0" Flow.initState
      ["John Doe, john@example.com, 5551234567, manager", "yes"]
      (fun h => Flow.ConversationState.noConfusion h)⟩

/-- C8 (counterexample): on the exact scenario message, the collector stores
the phone verbatim as "5551234567" — no E.164 normalization happens anywhere
in `_extract_user_info_from_query` — and the role keyword heuristic stores
"Manager" capitalized, not "manager". -/
theorem C8_counterexample :
    (Flow.run Flow.ext₀ "t0" Flow.initState
        ["John Doe, john@example.com, 5551234567, manager"]).session.data.phone =
      some "5551234567" ∧
    (Flow.run Flow.ext₀ "t0" Flow.initState
        ["John Doe, john@example.com, 5551234567, manager"]).session.data.phone ≠
      some "+15551234567" ∧
    (Flow.run Flow.ext₀ "t0" Flow.initState
        ["John Doe, john@example.com, 5551234567, manager"]).session.data.role =
      some "Manager" ∧
    (Flow.run Flow.ext₀ "t0" Flow.initState
        ["John Doe, john@example.com, 5551234567, manager"]).session.data.role ≠
      some "manager" :=
  ⟨by decide, by decide, by decide, by decide⟩

/-- C8 (amended): processing "John Doe, john@example.com, 5551234567,
manager" in the idle state runs a single pass of the comma-branch collector
that fills first_name "John", last_name "Doe", email "john@example.com",
phone stored verbatim as "5551234567" (no E.164 normalization), role
"Manager" (capitalized by the keyword heuristic), and moves the session
directly to confirmation-pending with no per-field prompt — for every store
and every choice of the opaque extraction fallbacks, which this input never
reaches. -/
theorem C8_single_pass (ext : Flow.Extractors) (now : String) (store : UM.Store) :
    Flow.processUserRequest ext
        { session := Flow.initSession, store := store }
        "John Doe, john@example.com, 5551234567, manager" now =
      Except.ok
        { session := { state := Flow.ConversationState.CONFIRMING_USER_CREATE,
                       data := { action := some "create_user",
                                 first_name := some "John",
                                 last_name := some "Doe",
                                 email := some "john@example.com",
                                 phone := some "5551234567",
                                 role := some "Manager" } },
          store := store } := rfl

/-- A user of the `UserDataManager` store, as `add_user` would have built it. -/
def exUMUser : UM.User :=
  UM.fillTemplate
    { first_name := some "Alice", last_name := some "Smith",
      email := some "alice@hotel.com" } "t0"

/-- A `UserDataManager` store holding that one user. -/
def exUMStore : UM.Store := { users := [("user_001", exUMUser)], next_user_id := 2 }

/-- Extractors whose `_find_user_from_query` finds `user_001` (as the real
regex path would for a query naming the stored email). -/
def ext₁ : Flow.Extractors :=
  { Flow.ext₀ with findUser := fun _ _ => some ("user_001", exUMUser) }

/-- The session state reached from idle by "edit user alice@hotel.com". -/
def exUpdState : Flow.SysState :=
  { session := { state := Flow.ConversationState.COLLECTING_USER_UPDATES,
                 data := { action := some "update_user", user_id := some "user_001",
                           user_name := some "Alice Smith" } },
    store := exUMStore }

def exConfUpdState : Flow.SysState :=
  { exUpdState with session := { exUpdState.session with
      state := Flow.ConversationState.CONFIRMING_USER_UPDATE } }

def exConfDelState : Flow.SysState :=
  { exUpdState with session := { exUpdState.session with
      state := Flow.ConversationState.CONFIRMING_USER_DELETE } }

/-- A collection-state session in the middle of the create flow. -/
def exCollectState : Flow.SysState :=
  { session := { state := Flow.ConversationState.COLLECTING_USER_DATA,
                 data := { action := some "create_user", first_name := some "John" } },
    store := UM.initStore }

/-- C5: "cancel" is handled gracefully only in the create-flow states.  The
state `COLLECTING_USER_UPDATES` is reachable (first conjunct: "edit user
alice@hotel.com" moves an idle session there), yet processing "cancel" in it
raises `AttributeError` because `_collect_user_updates` is not defined on
`InteractiveUserManager`; likewise `CONFIRMING_USER_UPDATE` and
`CONFIRMING_USER_DELETE` dispatch to the missing `_confirm_user_update` and
`_confirm_user_deletion`.  In `COLLECTING_USER_DATA` and
`CONFIRMING_USER_CREATE`, "cancel" does return the session to idle with the
pending data discarded. -/
theorem C5_cancel_behavior :
    Flow.processUserRequest ext₁
        { session := Flow.initSession, store := exUMStore }
        "edit user alice@hotel.com" "t0" = Except.ok exUpdState ∧
    Flow.processUserRequest Flow.ext₀ exUpdState "cancel" "t0" =
      Except.error (Flow.PyErr.attributeError "_collect_user_updates") ∧
    Flow.processUserRequest Flow.ext₀ exConfUpdState "cancel" "t0" =
      Except.error (Flow.PyErr.attributeError "_confirm_user_update") ∧
    Flow.processUserRequest Flow.ext₀ exConfDelState "cancel" "t0" =
      Except.error (Flow.PyErr.attributeError "_confirm_user_deletion") ∧
    Flow.processUserRequest Flow.ext₀ exCollectState "cancel" "t0" =
      Except.ok { exCollectState with session := Flow.initSession } ∧
    Flow.processUserRequest Flow.ext₀ exConfirmState "cancel" "t0" =
      Except.ok { exConfirmState with session := Flow.initSession } :=
  ⟨rfl, rfl, rfl, rfl, rfl, rfl⟩

/-- C7 (counterexample): `UserDataManager.delete_user` is a HARD delete — on
the one-user store the delete succeeds and the row is gone from the users
table (the manager even reports "permanently deleted"), contradicting the
claim that the record remains present after a successful delete. -/
theorem C7_counterexample :
    (UM.delete_user exUMStore "user_001").1 = true ∧
    (UM.delete_user exUMStore "user_001").2.users = [] ∧
    PyDict.dget (UM.delete_user exUMStore "user_001").2.users "user_001" = none :=
  ⟨by decide, by decide, by decide⟩

/-- C7 (amended): the two delete operations differ.
`MemoryDatabase.delete_user` soft-deletes: it flips `status` to "deleted",
stamps `deleted_at`, and the row stays in the users table.
`UserDataManager.delete_user` — the one the interactive flow uses — removes
the row outright (`del self.users[user_id]`), so the record is gone
afterwards (stated for stores with distinct keys, which Python dicts
guarantee). -/
theorem C7_delete_semantics :
    (∀ (db : MemDB.DB) (uid now : String) (r : MemDB.UserRecord),
      PyDict.dget db.users uid = some r →
      (MemDB.deleteUser db uid now).2 = true ∧
      PyDict.dget (MemDB.deleteUser db uid now).1.users uid =
        some { r with status := "deleted", deleted_at := some now }) ∧
    (∀ (st : UM.Store) (uid : String) (u : UM.User),
      (st.users.map Prod.fst).Nodup →
      PyDict.dget st.users uid = some u →
      (UM.delete_user st uid).1 = true ∧
      PyDict.dget (UM.delete_user st uid).2.users uid = none) := by
  constructor
  · intro db uid now r hget
    unfold MemDB.deleteUser
    rw [hget]
    exact ⟨rfl, PyDict.dget_dput_self _ _ _⟩
  · intro st uid u hnd hget
    unfold UM.delete_user
    rw [hget]
    exact ⟨rfl, PyDict.dget_ddel_self_nodup hnd⟩

/-- C7 (witness): the soft delete observed on the `MemoryDatabase` store
with `user_1001`, and the hard delete observed on the `UserDataManager`
store with `user_001`. -/
theorem C7_witness :
    (PyDict.dget MemDB.exDB₁.users "user_1001" =
        some (MemDB.mkRecord MemDB.exUser "user_1001" "t1") ∧
      (MemDB.deleteUser MemDB.exDB₁ "user_1001" "t2").2 = true ∧
      PyDict.dget (MemDB.deleteUser MemDB.exDB₁ "user_1001" "t2").1.users "user_1001" =
        some { MemDB.mkRecord MemDB.exUser "user_1001" "t1" with
                status := "deleted", deleted_at := some "t2" }) ∧
    ((exUMStore.users.map Prod.fst).Nodup ∧
      PyDict.dget exUMStore.users "user_001" = some exUMUser ∧
      (UM.delete_user exUMStore "user_001").1 = true ∧
      PyDict.dget (UM.delete_user exUMStore "user_001").2.users "user_001" = none) :=
  ⟨⟨by decide,
    (C7_delete_semantics.1 MemDB.exDB₁ "user_1001" "t2"
      (MemDB.mkRecord MemDB.exUser "user_1001" "t1") (by decide)).1,
    (C7_delete_semantics.1 MemDB.exDB₁ "user_1001" "t2"
      (MemDB.mkRecord MemDB.exUser "user_1001" "t1") (by decide)).2⟩,
   ⟨by decide, by decide,
    (C7_delete_semantics.2 exUMStore "user_001" exUMUser (by decide) (by decide)).1,
    (C7_delete_semantics.2 exUMStore "user_001" exUMUser (by decide) (by decide)).2⟩⟩
